import Mathlib

/-!
FocusNoiseCLI — verification of the Ambient Audio Session Engine

Shallow embedding of the audio mixer (`src/audio_manager.py`), the legacy
loader (`src/audio_engine.py`) and the session loop (`src/main.py`), with
theorems settling the frozen claims about the specification.

Floating-point levels and wall-clock times are modelled as rationals;
the pygame audio backend is modelled as the pool of channels the engine
has obtained from `Sound.play` and commands via `Channel.set_volume`.
-/

/-! Section: Generic string / assoc-list helpers mirroring Python primitives -/

/-- Keys of an association list (the keys of a Python `dict`). -/
def keysOf {β : Type} (l : List (String × β)) : List String :=
  l.map Prod.fst

/-- Python `d[k] = v`: replace the value of an existing key in place,
otherwise append the new binding at the end (dicts preserve insertion order). -/
def assocSet {β : Type} (l : List (String × β)) (k : String) (v : β) :
    List (String × β) :=
  if k ∈ keysOf l then l.map (fun kv => if kv.1 = k then (k, v) else kv)
  else l ++ [(k, v)]

/-- Test that `needle` is a leading run of `hay` (character-wise). -/
def leadsWith : List Char → List Char → Bool
  | [], _ => true
  | _ :: _, [] => false
  | a :: as, b :: bs => a == b && leadsWith as bs

/-- Python's substring test `needle in hay`. -/
def hasSub (needle : List Char) : List Char → Bool
  | [] => needle.isEmpty
  | b :: bs => leadsWith needle (b :: bs) || hasSub needle bs

/-- Python `s.lower()` (ASCII case folding suffices for the names involved). -/
def lowerStr (s : String) : String :=
  String.mk (s.toList.map Char.toLower)

/-- Python `s.lower().endswith(suf)` -like suffix test. -/
def strEnds (suf s : String) : Bool :=
  leadsWith suf.toList.reverse s.toList.reverse

/-- Index of the last occurrence of `c`, Python `str.rfind`. -/
def lastIdxOf (c : Char) : List Char → Option Nat
  | [] => none
  | a :: as =>
    match lastIdxOf c as with
    | some i => some (i + 1)
    | none => if a = c then some 0 else none

/-- Root part of `os.path.splitext` for a bare filename: split at the last
dot, unless every character before it is itself a dot. -/
def splitextRoot (cs : List Char) : List Char :=
  match lastIdxOf '.' cs with
  | none => cs
  | some d => if (cs.take d).any (fun c => c != '.') then cs.take d else cs

/-- Model of `pathlib.PurePath.suffix`: the extension including the dot, empty when the
last dot is the first or the final character. -/
def suffixOf (name : String) : String :=
  match lastIdxOf '.' name.toList with
  | none => ""
  | some i =>
    if 0 < i ∧ i < name.toList.length - 1 then String.mk (name.toList.drop i)
    else ""

/-- Python `max(0.0, min(1.0, q))`. -/
def clamp01 (q : ℚ) : ℚ := max 0 (min 1 q)

/-- Python `int(q)`: truncation toward zero. -/
def truncInt (q : ℚ) : ℤ := if 0 ≤ q then ⌊q⌋ else ⌈q⌉

/-! Section: The texture mapping table (`TEXTURE_MAP` in `audio_manager.py`) -/

/-- The static theme → texture table, in the source's literal order. -/
def TEXTURE_MAP : List (String × List String) :=
  [ ("Brown Noise", ["keyboard.mp3", "page-turn.mp3", "vinyl-crackle.mp3"]),
    ("City", ["distant-ambulance-siren.mp3", "distant-train.mp3",
              "bike-bell.mp3", "door-open-close-with-bell.mp3"]),
    ("Coffee Shop", ["espresso-steam.mp3", "pouring-coffee.mp3",
                     "spoon-and-cup.mp3", "cup-and-saucer.mp3",
                     "cash-register.mp3"]),
    ("Fire", ["page-turn.mp3", "vinyl-crackle.mp3", "crickets.mp3",
              "owl.mp3", "winter-wind.mp3"]),
    ("Flowing Water", ["frog.mp3", "wind-chimes.mp3", "distant-thunder.mp3"]),
    ("Gentle Rain", ["distant-thunder.mp3", "winter-wind.mp3",
                     "wind-chimes.mp3"]),
    ("Lofi", ["vinyl-crackle.mp3", "keyboard.mp3", "page-turn.mp3",
              "big-bell.mp3"]),
    ("Omm", ["big-bell.mp3", "wind-chimes.mp3"]),
    ("Rain Sounds", ["distant-thunder.mp3", "winter-wind.mp3"]),
    ("Sea Wave", ["seagull.mp3", "distant-foghorn.mp3", "winter-wind.mp3"]) ]

/-- Model of `os.path.splitext(loop_file)[0].replace("_"," ").replace("-"," ").lower()`. -/
def normTopic (filename : String) : List Char :=
  ((splitextRoot filename.toList).map
      (fun c => if c = '_' ∨ c = '-' then ' ' else c)).map Char.toLower

/-- Model of `key.lower() in loop_name_clean or loop_name_clean in key.lower()`. -/
def themeMatches (key : String) (clean : List Char) : Bool :=
  hasSub (key.toList.map Char.toLower) clean ||
    hasSub clean (key.toList.map Char.toLower)

/-- The `valid_textures` list built by `play_random_texture`: for each playing
loop, in order, extend with every mapping entry whose key fuzzily matches the
loop's normalized topic.  Duplicates are kept, exactly as `list.extend` does. -/
def validTextures (playing : List String) : List String :=
  playing.foldl
    (fun acc loopFile =>
      TEXTURE_MAP.foldl
        (fun a kt =>
          if themeMatches kt.1 (normTopic loopFile) then a ++ kt.2 else a)
        acc)
    []

/-! Section: Mixer state (`AudioManager` in `audio_manager.py`) -/

/-- One backend channel obtained from `Sound.play`; the engine commands its
volume via `Channel.set_volume` and observes `Channel.get_busy`. -/
structure MixChannel where
  soundName : String
  volume : ℚ
  busy : Bool
deriving DecidableEq

/-- The `AudioManager` state: the three sample pools (each filename mapped to
the volume last set on its `Sound` object, 1 when freshly loaded), the channel
pool the engine has allocated, the `channels` dict (filename → index into the
pool), the `playing` list, the master volume and the texture-scheduler state. -/
structure AMState where
  sounds : List (String × ℚ)
  sfx : List (String × ℚ)
  textures : List (String × ℚ)
  chanPool : List MixChannel
  channels : List (String × Nat)
  playing : List String
  master_volume : ℚ
  last_texture_time : ℚ
  weather_freq_range : ℚ × ℚ
  next_texture_interval : ℚ
deriving DecidableEq

/-- Observable playback errors a mixer call could surface to its caller. -/
inductive AMError where
  | notFound
deriving DecidableEq

/-- Model of `AudioManager.__init__` after scanning: pools loaded (each `Sound` at the
pygame default volume 1.0), nothing playing, master volume 1.0, weather range
at the Medium default (30, 90), first interval `u` drawn from it at time `t0`. -/
def initState (loops sfxFiles texFiles : List String) (t0 u : ℚ) : AMState :=
  { sounds := loops.map (fun n => (n, 1)),
    sfx := sfxFiles.map (fun n => (n, 1)),
    textures := texFiles.map (fun n => (n, 1)),
    chanPool := [],
    channels := [],
    playing := [],
    master_volume := 1,
    last_texture_time := t0,
    weather_freq_range := (30, 90),
    next_texture_interval := u }

/-- Model of `AudioManager.play_sound`: if the filename is in the loop pool, start a
looped playback (`Sound.play` may fail to find a free channel, modelled by
`gotChannel`); on success the fresh channel's volume is set to the master
volume, the `channels` dict entry is replaced and the filename is appended to
`playing` unless already present.  A filename absent from the pool is skipped
silently; no code path raises an observable error. -/
def playSoundR (s : AMState) (filename : String) (fadeMs : Nat)
    (gotChannel : Bool) : AMState × Option AMError :=
  if filename ∈ keysOf s.sounds then
    if gotChannel then
      let ch : MixChannel :=
        { soundName := filename, volume := s.master_volume, busy := true }
      ({ s with
          chanPool := s.chanPool ++ [ch],
          channels := assocSet s.channels filename s.chanPool.length,
          playing :=
            if filename ∈ s.playing then s.playing else s.playing ++ [filename] },
        none)
    else (s, none)
  else (s, none)

/-- The state part of `play_sound` (ignoring `fadeMs`, which only shapes the
backend ramp). -/
def playSound (s : AMState) (filename : String) (fadeMs : Nat)
    (gotChannel : Bool) : AMState :=
  (playSoundR s filename fadeMs gotChannel).1

/-- Model of `AudioManager.set_volume`: pass `level` through to the named `Sound`
object, unclamped, when the name is in the loop pool. -/
def setVolume (s : AMState) (filename : String) (level : ℚ) : AMState :=
  if filename ∈ keysOf s.sounds then
    { s with sounds := assocSet s.sounds filename level }
  else s

/-- The loop in `set_master_volume`: walk the channel pool with its indices and
set the volume of every busy channel referenced by the `channels` dict to `m`. -/
def applyMaster (chans : List (String × Nat)) (m : ℚ) :
    Nat → List MixChannel → List MixChannel
  | _, [] => []
  | i, ch :: rest =>
    (if chans.any (fun kv => kv.2 == i) && ch.busy then { ch with volume := m }
     else ch) :: applyMaster chans m (i + 1) rest

/-- Model of `AudioManager.set_master_volume`: clamp, store, re-apply to busy channels. -/
def setMasterVolume (s : AMState) (level : ℚ) : AMState :=
  let m := clamp01 level
  { s with
      master_volume := m,
      chanPool := applyMaster s.channels m 0 s.chanPool }

/-- Model of `AudioManager.stop_all`: fade out every playing sound that is still in the
loop pool (fading all backend channels of that sound), then clear `playing`
and the `channels` dict. -/
def stopAll (s : AMState) (fadeMs : Nat) : AMState :=
  let fading := s.playing.filter (fun f => (keysOf s.sounds).contains f)
  { s with
      chanPool := s.chanPool.map
        (fun ch =>
          if fading.contains ch.soundName then { ch with busy := false } else ch),
      playing := [],
      channels := [] }

/-- Model of `AudioManager.play_gong`: when `gong.mp3` is in the sfx pool, set its
volume to the master volume and play it (fire-and-forget, untracked). -/
def playGong (s : AMState) : AMState :=
  if "gong.mp3" ∈ keysOf s.sfx then
    { s with sfx := assocSet s.sfx "gong.mp3" s.master_volume }
  else s

/-- Model of `AudioManager.play_random_texture`: no-op when nothing plays or nothing
matches; otherwise `random.choice` (modelled as a uniformly chosen index `i`)
picks from the concatenated candidate list, and the chosen texture is played
at `master * r` (with `r` the `uniform(0.3, 0.6)` draw) only when it is
present in the texture pool — otherwise it is silently skipped. -/
def playRandomTexture (s : AMState) (i : Nat) (r : ℚ) : AMState :=
  if s.playing.isEmpty then s
  else
    let vt := validTextures s.playing
    if vt.isEmpty then s
    else
      let t := vt.getD (i % vt.length) ""
      if t ∈ keysOf s.textures then
        { s with textures := assocSet s.textures t (s.master_volume * r) }
      else s

/-- Model of `AudioManager.update_textures`: when the interval has elapsed, attempt one
texture, then unconditionally reset `last_texture_time` to `now` and redraw
the interval (`v` is the `random.uniform(*weather_freq_range)` draw). -/
def updateTextures (s : AMState) (now : ℚ) (i : Nat) (r v : ℚ) : AMState :=
  if now - s.last_texture_time > s.next_texture_interval then
    let s' := playRandomTexture s i r
    { s' with last_texture_time := now, next_texture_interval := v }
  else s

/-- The `ranges` dict of `set_weather_frequency`, in literal order. -/
def weatherRanges : List (String × (ℚ × ℚ)) :=
  [("low", (60, 120)), ("medium", (30, 90)), ("high", (15, 45))]

/-- Model of `AudioManager.set_weather_frequency`: `ranges.get(level.lower(), (30, 90))`;
only the range field changes. -/
def setWeatherFrequency (s : AMState) (level : String) : AMState :=
  { s with
      weather_freq_range := (List.lookup (lowerStr level) weatherRanges).getD (30, 90) }

/-! Section: Scheduler choice distribution -/

/-- Probability that `random.choice(valid_textures)` returns `t`: uniform over
LIST positions, so a texture's probability is its multiplicity over the list
length. -/
def textureChoiceProb (playing : List String) (t : String) : ℚ :=
  let vt := validTextures playing
  if vt.length = 0 then 0 else (vt.count t : ℚ) / vt.length

/-- Modelled from the spec's words, for comparison with `textureChoiceProb`:
"the texture it plays is chosen uniformly at random from the union, over all
active loops, of the TextureMapping entries whose theme key … matches" — a
uniform distribution over the SET of candidates. -/
def specUniformOverUnion (playing : List String) (t : String) : ℚ :=
  let u := (validTextures playing).dedup
  if t ∈ u then 1 / (u.length : ℚ) else 0

/-! Section: Session loop (`FocusApp.run` in `main.py`) -/

/-- The phases of one tick of the session loop, in the source's order:
compute elapsed/remaining and test termination, `update_textures`, the
input poll with the volume keys, the progress/layout render, `sleep(0.1)`. -/
inductive TickPhase where
  | termCheck
  | updateTextures
  | inputHandling
  | render
  | sleepPhase
deriving DecidableEq, BEq

/-- The order in which `FocusApp.run` performs the phases of one tick. -/
def tickOrder : List TickPhase :=
  [TickPhase.termCheck, TickPhase.updateTextures, TickPhase.inputHandling,
   TickPhase.render, TickPhase.sleepPhase]

/-- The input branch of the tick: `+`/`w`/`=` raises the master volume by
0.05, `-`/`s` lowers it by 0.05, anything else (or no pending key) is ignored. -/
def handleInput (s : AMState) (key : Option Char) : AMState :=
  match key with
  | none => s
  | some k =>
    if k = '+' ∨ k = 'w' ∨ k = '=' then
      setMasterVolume s (s.master_volume + 5 / 100)
    else if k = '-' ∨ k = 's' then
      setMasterVolume s (s.master_volume - 5 / 100)
    else s

/-- The volume percentage shown in the footer: `int(master_volume * 100)`. -/
def renderFooterVolume (s : AMState) : ℤ :=
  truncInt (s.master_volume * 100)

/-- One tick of the live session loop after the termination test: textures
first, then input, then the render (whose footer reads the master volume). -/
def sessionTick (s : AMState) (now : ℚ) (i : Nat) (r v : ℚ)
    (key : Option Char) : AMState × ℤ :=
  let s1 := updateTextures s now i r v
  let s2 := handleInput s1 key
  (s2, renderFooterVolume s2)

/-! Section: Shutdown sequence (`FocusApp.run`, terminal paths) -/

/-- The two terminal states of a session. -/
inductive SessionEnd where
  | finished
  | cancelled
deriving DecidableEq

/-- The externally visible actions of the terminal phase of `FocusApp.run`. -/
inductive ShutdownEvent where
  | statsUpdate
  | message (text : String)
  | stopAllLoops (fadeMs : Nat)
  | sleepSec (q : ℚ)
  | gongChime
deriving DecidableEq

/-- The terminal phase of `FocusApp.run`, exactly as the source orders it.
The natural exit (loop breaks on `remaining <= 0`) saves stats, fades out,
waits 2 s, plays the gong and waits 4 s; the `KeyboardInterrupt` handler
saves stats, fades out, waits 2 s and prints — no gong, no 4 s wait. -/
def shutdownEvents : SessionEnd → List ShutdownEvent
  | SessionEnd.finished =>
    [ShutdownEvent.statsUpdate,
     ShutdownEvent.message "Fading out...",
     ShutdownEvent.stopAllLoops 2000,
     ShutdownEvent.sleepSec 2,
     ShutdownEvent.gongChime,
     ShutdownEvent.sleepSec 4,
     ShutdownEvent.message "Session Complete!",
     ShutdownEvent.message "Stats Saved"]
  | SessionEnd.cancelled =>
    [ShutdownEvent.statsUpdate,
     ShutdownEvent.message "Fading out...",
     ShutdownEvent.stopAllLoops 2000,
     ShutdownEvent.sleepSec 2,
     ShutdownEvent.message "Session Stopped.",
     ShutdownEvent.message "Stats Saved"]

/-- The cleanup behaviour of a terminal path: its events with the user-facing
messages removed. -/
def cleanupActions (e : SessionEnd) : List ShutdownEvent :=
  (shutdownEvents e).filter
    (fun ev => match ev with | ShutdownEvent.message _ => false | _ => true)

/-! Section: Directory scanning (`_scan_folder` and the legacy `_load_sounds`) -/

/-- A directory entry as the scanners observe it: its name, whether it is a
regular file, and whether `pygame.mixer.Sound` succeeds in decoding it. -/
structure FsEntry where
  name : String
  isFile : Bool
  decodes : Bool
deriving DecidableEq

/-- The extension allow-list test of `_scan_folder`:
`item.suffix.lower() in {".wav", ".mp3", ".ogg"}`. -/
def extAllowed (name : String) : Bool :=
  [".wav", ".mp3", ".ogg"].contains (lowerStr (suffixOf name))

/-- One step of the `_scan_folder` loop: a regular file with an allowed
extension is loaded when it decodes, logged when it does not; everything else
is skipped. -/
def scanStep (acc : List (String × ℚ) × List String) (e : FsEntry) :
    List (String × ℚ) × List String :=
  if e.isFile && extAllowed e.name then
    if e.decodes then (assocSet acc.1 e.name 1, acc.2)
    else (acc.1, acc.2 ++ [e.name])
  else acc

/-- Model of `AudioManager._scan_folder` (audio_manager.py): a missing folder returns
the storage untouched with nothing logged; otherwise every entry is visited
non-recursively and folded through `scanStep`.  The second component is the
list of logged decode failures. -/
def scanFolder (folder : Option (List FsEntry))
    (storage : List (String × ℚ)) : List (String × ℚ) × List String :=
  match folder with
  | none => (storage, [])
  | some entries => entries.foldl scanStep (storage, [])

/-- The legacy `AudioManager._load_sounds` (audio_engine.py): a missing
directory yields an empty pool (warning printed, no error); otherwise the
entries whose lowered name ends in `.wav` are loaded, decode failures logged
and skipped. -/
def loadSoundsWav (dir : Option (List FsEntry)) :
    List (String × ℚ) × List String :=
  match dir with
  | none => ([], [])
  | some entries =>
    (entries.filter (fun e => strEnds ".wav" (lowerStr e.name))).foldl
      (fun acc e =>
        if e.decodes then (assocSet acc.1 e.name 1, acc.2)
        else (acc.1, acc.2 ++ [e.name]))
      ([], [])

/-! Section: Reachable mixer states -/

/-- The mixer states reachable from a freshly constructed `AudioManager` by
the public operations.  Random draws appear as parameters bounded the way
`random.uniform` bounds them; `update_textures` redraws the interval from the
current weather range. -/
inductive Reachable : AMState → Prop where
  | init (loops sfxFiles texFiles : List String) (t0 u : ℚ)
      (hu : 30 ≤ u ∧ u ≤ 90) :
      Reachable (initState loops sfxFiles texFiles t0 u)
  | play {s : AMState} (filename : String) (fadeMs : Nat) (gotChannel : Bool)
      (hs : Reachable s) : Reachable (playSound s filename fadeMs gotChannel)
  | setVol {s : AMState} (filename : String) (level : ℚ)
      (hs : Reachable s) : Reachable (setVolume s filename level)
  | setMaster {s : AMState} (level : ℚ)
      (hs : Reachable s) : Reachable (setMasterVolume s level)
  | stop {s : AMState} (fadeMs : Nat)
      (hs : Reachable s) : Reachable (stopAll s fadeMs)
  | gong {s : AMState} (hs : Reachable s) : Reachable (playGong s)
  | textures {s : AMState} (now : ℚ) (i : Nat) (r v : ℚ)
      (hr : 3 / 10 ≤ r ∧ r ≤ 6 / 10)
      (hv : s.weather_freq_range.1 ≤ v ∧ v ≤ s.weather_freq_range.2)
      (hs : Reachable s) : Reachable (updateTextures s now i r v)
  | weather {s : AMState} (level : String)
      (hs : Reachable s) : Reachable (setWeatherFrequency s level)

/-- The invariant carried through every reachable state: master volume and
all channel volumes clamped, no duplicate handles, a positive weather range
and a strictly positive next interval. -/
def StateInv (s : AMState) : Prop :=
  0 ≤ s.master_volume ∧ s.master_volume ≤ 1 ∧
  (∀ ch ∈ s.chanPool, 0 ≤ ch.volume ∧ ch.volume ≤ 1) ∧
  (keysOf s.channels).Nodup ∧ s.playing.Nodup ∧
  0 < s.weather_freq_range.1 ∧
  s.weather_freq_range.1 ≤ s.weather_freq_range.2 ∧
  0 < s.next_texture_interval

/-! Section: Helper lemmas -/

lemma clamp01_nonneg (q : ℚ) : 0 ≤ clamp01 q := le_max_left 0 _

lemma clamp01_le_one (q : ℚ) : clamp01 q ≤ 1 :=
  max_le (by norm_num) (min_le_left 1 q)

lemma keysOf_map_replace {β : Type} (l : List (String × β)) (k : String)
    (v : β) :
    keysOf (l.map (fun kv => if kv.1 = k then (k, v) else kv)) = keysOf l := by
  induction l with
  | nil => rfl
  | cons kv t ih =>
    simp only [keysOf, List.map_cons, List.cons.injEq] at *
    by_cases h : kv.1 = k
    · exact ⟨by simp [h], ih⟩
    · exact ⟨by simp [h], ih⟩

lemma keysOf_assocSet_of_mem {β : Type} {l : List (String × β)} {k : String}
    (v : β) (h : k ∈ keysOf l) : keysOf (assocSet l k v) = keysOf l := by
  unfold assocSet
  rw [if_pos h]
  exact keysOf_map_replace l k v

lemma keysOf_assocSet_of_not_mem {β : Type} {l : List (String × β)}
    {k : String} (v : β) (h : k ∉ keysOf l) :
    keysOf (assocSet l k v) = keysOf l ++ [k] := by
  unfold assocSet
  rw [if_neg h]
  simp [keysOf]

lemma nodup_keys_assocSet {β : Type} {l : List (String × β)} {k : String}
    (v : β) (h : (keysOf l).Nodup) : (keysOf (assocSet l k v)).Nodup := by
  by_cases hk : k ∈ keysOf l
  · rw [keysOf_assocSet_of_mem v hk]; exact h
  · rw [keysOf_assocSet_of_not_mem v hk]
    simp [List.nodup_append, h, hk]

lemma count_keysOf_assocSet {β : Type} {l : List (String × β)} {k : String}
    (v : β) (h : (keysOf l).Nodup) :
    (keysOf (assocSet l k v)).count k = 1 := by
  by_cases hk : k ∈ keysOf l
  · rw [keysOf_assocSet_of_mem v hk]
    exact le_antisymm (List.nodup_iff_count_le_one.mp h k)
      (List.count_pos_iff.mpr hk)
  · rw [keysOf_assocSet_of_not_mem v hk]
    simp [List.count_append, List.count_eq_zero_of_not_mem hk]

lemma mem_keysOf_assocSet {β : Type} {l : List (String × β)} {k n : String}
    (v : β) : n ∈ keysOf (assocSet l k v) ↔ n ∈ keysOf l ∨ n = k := by
  by_cases hk : k ∈ keysOf l
  · rw [keysOf_assocSet_of_mem v hk]
    constructor
    · exact Or.inl
    · rintro (h | rfl)
      · exact h
      · exact hk
  · rw [keysOf_assocSet_of_not_mem v hk]
    simp

lemma lookup_map_replace {β : Type} (t : List (String × β)) (k : String)
    (v : β) (hk : k ∈ keysOf t) :
    List.lookup k (t.map (fun kv => if kv.1 = k then (k, v) else kv)) =
      some v := by
  induction t with
  | nil => simp [keysOf] at hk
  | cons kv t ih =>
    rw [List.map_cons]
    by_cases h : kv.1 = k
    · rw [if_pos h]
      simp [List.lookup]
    · rw [if_neg h]
      have hk' : k ∈ keysOf t := by
        have he : keysOf (kv :: t) = kv.1 :: keysOf t := rfl
        rw [he] at hk
        rcases List.mem_cons.mp hk with h' | h'
        · exact absurd h'.symm h
        · exact h'
      have hne : (k == kv.1) = false :=
        beq_false_of_ne (fun he => h he.symm)
      simp [List.lookup, hne, ih hk']

lemma lookup_append_single {β : Type} (t : List (String × β)) (k : String)
    (v : β) (hk : k ∉ keysOf t) : List.lookup k (t ++ [(k, v)]) = some v := by
  induction t with
  | nil => simp [List.lookup]
  | cons kv t ih =>
    have h1 : ¬ kv.1 = k := by
      intro he
      apply hk
      rw [← he]
      exact List.mem_map_of_mem Prod.fst (List.mem_cons_self kv t)
    have hk' : k ∉ keysOf t := fun h => hk (List.mem_cons_of_mem kv.1 h)
    have hne : (k == kv.1) = false :=
      beq_false_of_ne (fun he => h1 he.symm)
    simp [List.cons_append, List.lookup, hne, ih hk']

lemma lookup_assocSet {β : Type} (l : List (String × β)) (k : String)
    (v : β) : List.lookup k (assocSet l k v) = some v := by
  unfold assocSet
  by_cases hk : k ∈ keysOf l
  · rw [if_pos hk]
    exact lookup_map_replace l k v hk
  · rw [if_neg hk]
    exact lookup_append_single l k v hk

lemma applyMaster_vol_bound (chans : List (String × Nat)) (m : ℚ)
    (P : ℚ → Prop) (hm : P m) :
    ∀ (pool : List MixChannel) (i0 : Nat),
      (∀ ch ∈ pool, P ch.volume) →
      ∀ ch ∈ applyMaster chans m i0 pool, P ch.volume := by
  intro pool
  induction pool with
  | nil => intro i0 _ ch h; simp [applyMaster] at h
  | cons c rest ih =>
    intro i0 hp ch h
    rw [applyMaster] at h
    rcases List.mem_cons.mp h with h' | h'
    · subst h'
      split
      · exact hm
      · exact hp c (List.mem_cons_self c rest)
    · exact ih (i0 + 1) (fun x hx => hp x (List.mem_cons_of_mem c hx)) ch h'

lemma applyMaster_getD (chans : List (String × Nat)) (m : ℚ) :
    ∀ (pool : List MixChannel) (i0 j : Nat) (d : MixChannel),
      j < pool.length →
      (applyMaster chans m i0 pool).getD j d =
        (if chans.any (fun kv => kv.2 == i0 + j) && (pool.getD j d).busy then
          { pool.getD j d with volume := m }
         else pool.getD j d) := by
  intro pool
  induction pool with
  | nil => intro i0 j d h; simp at h
  | cons c rest ih =>
    intro i0 j d h
    cases j with
    | zero =>
      simp only [applyMaster, List.getD_cons_zero, Nat.add_zero]
    | succ j' =>
      have hlt : j' < rest.length := by
        simpa [List.length_cons, Nat.succ_lt_succ_iff] using h
      have := ih (i0 + 1) j' d hlt
      simp only [applyMaster, List.getD_cons_succ]
      rw [this, Nat.add_assoc, Nat.add_comm 1 j']

lemma playRandomTexture_shape (s : AMState) (i : Nat) (r : ℚ) :
    ∃ tx, playRandomTexture s i r = { s with textures := tx } := by
  unfold playRandomTexture
  split
  · exact ⟨s.textures, rfl⟩
  · dsimp only
    split
    · exact ⟨s.textures, rfl⟩
    · split
      · exact ⟨_, rfl⟩
      · exact ⟨s.textures, rfl⟩

lemma updateTextures_shape (s : AMState) (now : ℚ) (i : Nat) (r v : ℚ) :
    updateTextures s now i r v = s ∨
      ∃ tx, updateTextures s now i r v =
        { s with
            textures := tx, last_texture_time := now,
            next_texture_interval := v } := by
  unfold updateTextures
  split
  · right
    obtain ⟨tx, htx⟩ := playRandomTexture_shape s i r
    exact ⟨tx, by rw [htx]⟩
  · left; rfl

lemma updateTextures_master (s : AMState) (now : ℚ) (i : Nat) (r v : ℚ) :
    (updateTextures s now i r v).master_volume = s.master_volume := by
  rcases updateTextures_shape s now i r v with h | ⟨tx, h⟩ <;> rw [h]

lemma weatherRange_choice (x : String) :
    (List.lookup x weatherRanges).getD (30, 90) = ((60 : ℚ), (120 : ℚ)) ∨
    (List.lookup x weatherRanges).getD (30, 90) = ((30 : ℚ), (90 : ℚ)) ∨
    (List.lookup x weatherRanges).getD (30, 90) = ((15 : ℚ), (45 : ℚ)) := by
  simp only [weatherRanges, List.lookup]
  rcases hb : x == "low" with _ | _
  · rcases hb2 : x == "medium" with _ | _
    · rcases hb3 : x == "high" with _ | _ <;> simp
    · simp
  · simp

lemma stateInv_init (loops sfxFiles texFiles : List String) (t0 u : ℚ)
    (hu : 30 ≤ u ∧ u ≤ 90) :
    StateInv (initState loops sfxFiles texFiles t0 u) := by
  refine ⟨by norm_num [initState], by norm_num [initState], ?_, ?_, ?_, ?_,
    ?_, ?_⟩
  · intro ch hch
    simp [initState] at hch
  · simp [initState, keysOf]
  · simp [initState]
  · norm_num [initState]
  · norm_num [initState]
  · have := hu.1
    simp only [initState]
    linarith

lemma stateInv_play {s : AMState} (hs : StateInv s) (f : String) (fm : Nat)
    (g : Bool) : StateInv (playSound s f fm g) := by
  obtain ⟨h1, h2, h3, h4, h5, h6, h7, h8⟩ := hs
  unfold playSound playSoundR
  split_ifs with hm hg hp
  · refine ⟨h1, h2, ?_, nodup_keys_assocSet _ h4, h5, h6, h7, h8⟩
    intro ch hch
    rcases List.mem_append.mp hch with h | h
    · exact h3 ch h
    · have he : ch = { soundName := f, volume := s.master_volume, busy := true } :=
        List.mem_singleton.mp h
      rw [he]
      exact ⟨h1, h2⟩
  · refine ⟨h1, h2, ?_, nodup_keys_assocSet _ h4, ?_, h6, h7, h8⟩
    · intro ch hch
      rcases List.mem_append.mp hch with h | h
      · exact h3 ch h
      · have he : ch = { soundName := f, volume := s.master_volume, busy := true } :=
          List.mem_singleton.mp h
        rw [he]
        exact ⟨h1, h2⟩
    · rw [List.nodup_append]
      exact ⟨h5, List.nodup_singleton f,
        fun a ha hf => hp (List.mem_singleton.mp hf ▸ ha)⟩
  · exact ⟨h1, h2, h3, h4, h5, h6, h7, h8⟩
  · exact ⟨h1, h2, h3, h4, h5, h6, h7, h8⟩

lemma stateInv_setVol {s : AMState} (hs : StateInv s) (f : String) (lv : ℚ) :
    StateInv (setVolume s f lv) := by
  unfold setVolume
  split
  · exact hs
  · exact hs

lemma stateInv_setMaster {s : AMState} (hs : StateInv s) (lv : ℚ) :
    StateInv (setMasterVolume s lv) := by
  obtain ⟨h1, h2, h3, h4, h5, h6, h7, h8⟩ := hs
  refine ⟨clamp01_nonneg lv, clamp01_le_one lv, ?_, h4, h5, h6, h7, h8⟩
  exact applyMaster_vol_bound s.channels (clamp01 lv)
    (fun q => 0 ≤ q ∧ q ≤ 1) ⟨clamp01_nonneg lv, clamp01_le_one lv⟩
    s.chanPool 0 h3

lemma stateInv_stop {s : AMState} (hs : StateInv s) (fm : Nat) :
    StateInv (stopAll s fm) := by
  obtain ⟨h1, h2, h3, h4, h5, h6, h7, h8⟩ := hs
  dsimp only [stopAll]
  refine ⟨h1, h2, ?_, by simp [keysOf], by simp, h6, h7, h8⟩
  intro ch hch
  rcases List.mem_map.mp hch with ⟨x, hx, hfx⟩
  rw [← hfx]
  split
  · exact h3 x hx
  · exact h3 x hx

lemma stateInv_gong {s : AMState} (hs : StateInv s) :
    StateInv (playGong s) := by
  unfold playGong
  split
  · exact hs
  · exact hs

lemma stateInv_weather {s : AMState} (hs : StateInv s) (lv : String) :
    StateInv (setWeatherFrequency s lv) := by
  obtain ⟨h1, h2, h3, h4, h5, h6, h7, h8⟩ := hs
  refine ⟨h1, h2, h3, h4, h5, ?_, ?_, h8⟩
  · rcases weatherRange_choice (lowerStr lv) with h | h | h <;>
      simp [setWeatherFrequency, h]
  · rcases weatherRange_choice (lowerStr lv) with h | h | h <;>
      simp [setWeatherFrequency, h] <;> norm_num

lemma stateInv_textures {s : AMState} (hs : StateInv s) (now : ℚ) (i : Nat)
    (r v : ℚ)
    (hv : s.weather_freq_range.1 ≤ v ∧ v ≤ s.weather_freq_range.2) :
    StateInv (updateTextures s now i r v) := by
  obtain ⟨h1, h2, h3, h4, h5, h6, h7, h8⟩ := hs
  rcases updateTextures_shape s now i r v with h | ⟨tx, h⟩
  · rw [h]
    exact ⟨h1, h2, h3, h4, h5, h6, h7, h8⟩
  · rw [h]
    exact ⟨h1, h2, h3, h4, h5, h6, h7, lt_of_lt_of_le h6 hv.1⟩

lemma reachable_inv {s : AMState} (hs : Reachable s) : StateInv s := by
  induction hs with
  | init loops sfxFiles texFiles t0 u hu =>
    exact stateInv_init loops sfxFiles texFiles t0 u hu
  | play f fm g _ ih => exact stateInv_play ih f fm g
  | setVol f lv _ ih => exact stateInv_setVol ih f lv
  | setMaster lv _ ih => exact stateInv_setMaster ih lv
  | stop fm _ ih => exact stateInv_stop ih fm
  | gong _ ih => exact stateInv_gong ih
  | textures now i r v hr hv _ ih => exact stateInv_textures ih now i r v hv
  | weather lv _ ih => exact stateInv_weather ih lv

lemma mem_innerFold (lf t : String) :
    ∀ (l : List (String × List String)) (acc : List String),
      (t ∈ l.foldl
          (fun a kt =>
            if themeMatches kt.1 (normTopic lf) then a ++ kt.2 else a) acc ↔
        t ∈ acc ∨
          ∃ kt ∈ l, themeMatches kt.1 (normTopic lf) = true ∧ t ∈ kt.2) := by
  intro l
  induction l with
  | nil => intro acc; simp
  | cons kt rest ih =>
    intro acc
    rw [List.foldl_cons]
    by_cases h : themeMatches kt.1 (normTopic lf) = true
    · rw [if_pos h, ih]
      simp only [List.mem_append, List.mem_cons]
      constructor
      · rintro ((ha | hkt) | ⟨kt', hkt', hm, ht⟩)
        · exact Or.inl ha
        · exact Or.inr ⟨kt, Or.inl rfl, h, hkt⟩
        · exact Or.inr ⟨kt', Or.inr hkt', hm, ht⟩
      · rintro (ha | ⟨kt', hkt' | hkt', hm, ht⟩)
        · exact Or.inl (Or.inl ha)
        · exact Or.inl (Or.inr (hkt' ▸ ht))
        · exact Or.inr ⟨kt', hkt', hm, ht⟩
    · rw [if_neg h, ih]
      simp only [List.mem_cons]
      constructor
      · rintro (ha | ⟨kt', hkt', hm, ht⟩)
        · exact Or.inl ha
        · exact Or.inr ⟨kt', Or.inr hkt', hm, ht⟩
      · rintro (ha | ⟨kt', hkt' | hkt', hm, ht⟩)
        · exact Or.inl ha
        · exact absurd (hkt' ▸ hm) h
        · exact Or.inr ⟨kt', hkt', hm, ht⟩

lemma mem_validTextures_aux (t : String) :
    ∀ (playing acc : List String),
      (t ∈ playing.foldl
          (fun acc lf =>
            TEXTURE_MAP.foldl
              (fun a kt =>
                if themeMatches kt.1 (normTopic lf) then a ++ kt.2 else a)
              acc)
          acc ↔
        t ∈ acc ∨
          ∃ lf ∈ playing, ∃ kt ∈ TEXTURE_MAP,
            themeMatches kt.1 (normTopic lf) = true ∧ t ∈ kt.2) := by
  intro playing
  induction playing with
  | nil => intro acc; simp
  | cons lf rest ih =>
    intro acc
    rw [List.foldl_cons, ih, mem_innerFold]
    simp only [List.mem_cons]
    constructor
    · rintro ((ha | ⟨kt, hkt, hm, ht⟩) | ⟨lf', hlf', kt, hkt, hm, ht⟩)
      · exact Or.inl ha
      · exact Or.inr ⟨lf, Or.inl rfl, kt, hkt, hm, ht⟩
      · exact Or.inr ⟨lf', Or.inr hlf', kt, hkt, hm, ht⟩
    · rintro (ha | ⟨lf', hlf' | hlf', kt, hkt, hm, ht⟩)
      · exact Or.inl (Or.inl ha)
      · exact Or.inl (Or.inr ⟨kt, hkt, hlf' ▸ hm, ht⟩)
      · exact Or.inr ⟨lf', hlf', kt, hkt, hm, ht⟩

lemma mem_validTextures (playing : List String) (t : String) :
    t ∈ validTextures playing ↔
      ∃ lf ∈ playing, ∃ kt ∈ TEXTURE_MAP,
        themeMatches kt.1 (normTopic lf) = true ∧ t ∈ kt.2 := by
  unfold validTextures
  rw [mem_validTextures_aux]
  simp

lemma keys_scanFoldl (t : String) :
    ∀ (entries : List FsEntry) (acc : List (String × ℚ) × List String),
      (t ∈ keysOf (entries.foldl scanStep acc).1 ↔
        t ∈ keysOf acc.1 ∨
          ∃ e ∈ entries, e.name = t ∧
            (e.isFile && extAllowed e.name && e.decodes) = true) := by
  intro entries
  induction entries with
  | nil => intro acc; simp
  | cons e rest ih =>
    intro acc
    rw [List.foldl_cons, ih]
    simp only [List.mem_cons]
    constructor
    · rintro (ha | ⟨e', he', hn, hc⟩)
      · unfold scanStep at ha
        split_ifs at ha with h1 h2
        · rcases (mem_keysOf_assocSet 1).mp ha with h | h
          · exact Or.inl h
          · exact Or.inr ⟨e, Or.inl rfl, h.symm, by
              simp only [Bool.and_eq_true] at h1 ⊢
              exact ⟨h1, h2⟩⟩
        · exact Or.inl ha
        · exact Or.inl ha
      · exact Or.inr ⟨e', Or.inr he', hn, hc⟩
    · rintro (ha | ⟨e', he' | he', hn, hc⟩)
      · left
        unfold scanStep
        split_ifs with h1 h2
        · exact (mem_keysOf_assocSet 1).mpr (Or.inl ha)
        · exact ha
        · exact ha
      · subst he'
        simp only [Bool.and_eq_true] at hc
        left
        unfold scanStep
        rw [if_pos (by simp [hc.1.1, hc.1.2]), if_pos hc.2]
        exact (mem_keysOf_assocSet 1).mpr (Or.inr hn.symm)
      · exact Or.inr ⟨e', he', hn, hc⟩

lemma keys_wavFoldl (t : String) :
    ∀ (entries : List FsEntry) (acc : List (String × ℚ) × List String),
      (t ∈ keysOf
          (entries.foldl
            (fun acc e =>
              if e.decodes then (assocSet acc.1 e.name 1, acc.2)
              else (acc.1, acc.2 ++ [e.name]))
            acc).1 ↔
        t ∈ keysOf acc.1 ∨ ∃ e ∈ entries, e.name = t ∧ e.decodes = true) := by
  intro entries
  induction entries with
  | nil => intro acc; simp
  | cons e rest ih =>
    intro acc
    rw [List.foldl_cons, ih]
    simp only [List.mem_cons]
    constructor
    · rintro (ha | ⟨e', he', hn, hc⟩)
      · split_ifs at ha with h1
        · rcases (mem_keysOf_assocSet 1).mp ha with h | h
          · exact Or.inl h
          · exact Or.inr ⟨e, Or.inl rfl, h.symm, h1⟩
        · exact Or.inl ha
      · exact Or.inr ⟨e', Or.inr he', hn, hc⟩
    · rintro (ha | ⟨e', he' | he', hn, hc⟩)
      · left
        split_ifs with h1
        · exact (mem_keysOf_assocSet 1).mpr (Or.inl ha)
        · exact ha
      · subst he'
        left
        rw [if_pos hc]
        exact (mem_keysOf_assocSet 1).mpr (Or.inr hn.symm)
      · exact Or.inr ⟨e', he', hn, hc⟩

lemma count_playing_insert {p : List String} (hn : p.Nodup) (f : String) :
    (if f ∈ p then p else p ++ [f]).count f = 1 := by
  by_cases hf : f ∈ p
  · rw [if_pos hf]
    exact le_antisymm (List.nodup_iff_count_le_one.mp hn f)
      (List.count_pos_iff.mpr hf)
  · rw [if_neg hf]
    simp [List.count_append, List.count_eq_zero_of_not_mem hf]

lemma playSound_true_fields {s : AMState} {f : String} (fm : Nat)
    (hm : f ∈ keysOf s.sounds) :
    (playSound s f fm true).sounds = s.sounds ∧
    (playSound s f fm true).playing =
      (if f ∈ s.playing then s.playing else s.playing ++ [f]) ∧
    (playSound s f fm true).channels =
      assocSet s.channels f s.chanPool.length := by
  simp [playSound, playSoundR, hm]

lemma lookup_none_of_not_mem {β : Type} {l : List (String × β)} {k : String}
    (h : k ∉ keysOf l) : List.lookup k l = none := by
  induction l with
  | nil => rfl
  | cons kv t ih =>
    have h1 : ¬ kv.1 = k := by
      intro he
      apply h
      rw [← he]
      exact List.mem_map_of_mem Prod.fst (List.mem_cons_self kv t)
    have h2 : k ∉ keysOf t := fun hmem => h (List.mem_cons_of_mem kv.1 hmem)
    simp [List.lookup, beq_false_of_ne (fun he : k = kv.1 => h1 he.symm),
      ih h2]

/-! Section: Claim C1 — shutdown sequence on the two terminal paths -/

/-- Claim C1: (counterexample).  The claim states that the Finished and the
Cancelled terminal states run the same shutdown sequence and differ only in
the message surfaced to the user.  With the messages stripped, the two action
sequences of `FocusApp.run` still differ: the `KeyboardInterrupt` handler
performs no completion chime and no 4-second wait. -/
theorem claim_C1_counterexample :
    cleanupActions SessionEnd.finished ≠ cleanupActions SessionEnd.cancelled := by
  decide

/-- Claim C1: (amended).  Both terminal paths run the elapsed-time accounting,
the fade-out `stop_all(2000)` and the 2-second wait exactly once, in that
order (the stats report comes before the fade, not after); only the Finished
path then plays the completion chime — at master volume, as `play_gong`
sets the gong's volume to the stored master volume — and waits 4 seconds.
The two terminal states therefore differ in the chime step as well as in the
message. -/
theorem claim_C1_amended :
    cleanupActions SessionEnd.finished =
      [ShutdownEvent.statsUpdate, ShutdownEvent.stopAllLoops 2000,
       ShutdownEvent.sleepSec 2, ShutdownEvent.gongChime,
       ShutdownEvent.sleepSec 4] ∧
    cleanupActions SessionEnd.cancelled =
      [ShutdownEvent.statsUpdate, ShutdownEvent.stopAllLoops 2000,
       ShutdownEvent.sleepSec 2] ∧
    (∀ s : AMState, "gong.mp3" ∈ keysOf s.sfx →
      List.lookup "gong.mp3" (playGong s).sfx = some s.master_volume) := by
  refine ⟨by decide, by decide, ?_⟩
  intro s hg
  unfold playGong
  rw [if_pos hg]
  exact lookup_assocSet s.sfx "gong.mp3" s.master_volume

/-- Witness for `claim_C1_amended` at a mixer whose sfx pool holds the gong. -/
theorem claim_C1_witness :
    List.lookup "gong.mp3"
        (playGong (initState [] ["gong.mp3"] [] 0 50)).sfx =
      some (initState [] ["gong.mp3"] [] 0 50).master_volume :=
  claim_C1_amended.2.2 (initState [] ["gong.mp3"] [] 0 50) (by decide)

/-! Section: Claim C2 — ordering within one tick -/

/-- Claim C2: (counterexample).  The claim orders input handling before the
texture-scheduler evaluation; in `FocusApp.run` the tick calls
`update_textures()` first and polls input afterwards. -/
theorem claim_C2_counterexample :
    ¬ (tickOrder.indexOf TickPhase.inputHandling <
        tickOrder.indexOf TickPhase.updateTextures) := by
  decide

/-- Claim C2: (amended).  Within one tick the texture-scheduler evaluation
happens before input handling, which happens before the render; a volume
change applied by the input step is still reflected in the same tick's
rendered output: after a pending `+` keystroke the rendered footer volume is
the truncation of 100 times the clamped raised master volume. -/
theorem claim_C2_amended :
    (tickOrder.indexOf TickPhase.updateTextures <
       tickOrder.indexOf TickPhase.inputHandling ∧
     tickOrder.indexOf TickPhase.inputHandling <
       tickOrder.indexOf TickPhase.render) ∧
    ∀ (s : AMState) (now : ℚ) (i : Nat) (r v : ℚ),
      (sessionTick s now i r v (some '+')).2 =
        truncInt (clamp01 (s.master_volume + 5 / 100) * 100) := by
  refine ⟨by decide, ?_⟩
  intro s now i r v
  have h1 : (updateTextures s now i r v).master_volume = s.master_volume :=
    updateTextures_master s now i r v
  simp [sessionTick, handleInput, renderFooterVolume, setMasterVolume, h1]

/-! Section: Claim C3 — starting an absent loop name -/

/-- Claim C3: (counterexample).  The claim states that `play_sound` on a name
absent from the loop pool fails with a `NotFound` error the caller can
observe; on a mixer with an empty loop pool the call returns no error at
all. -/
theorem claim_C3_counterexample :
    "missing.wav" ∉ keysOf (initState [] [] [] 0 50).sounds ∧
    (playSoundR (initState [] [] [] 0 50) "missing.wav" 2000 true).2 ≠
      some AMError.notFound := by
  decide

/-- Claim C3: (amended).  `play_sound` on a name absent from the loop pool is a
silent no-op: it raises no observable error and leaves the whole mixer state
— active set, channels and master volume included — unchanged, so only that
one operation is dropped and the session continues. -/
theorem claim_C3_amended (s : AMState) (name : String) (fadeMs : Nat)
    (gotChannel : Bool) (h : name ∉ keysOf s.sounds) :
    playSoundR s name fadeMs gotChannel = (s, none) := by
  unfold playSoundR
  rw [if_neg h]

/-- Witness for `claim_C3_amended` on a concrete missing name. -/
theorem claim_C3_witness :
    playSoundR (initState ["rain.wav"] [] [] 0 50) "fire.wav" 2000 true =
      (initState ["rain.wav"] [] [] 0 50, none) :=
  claim_C3_amended (initState ["rain.wav"] [] [] 0 50) "fire.wav" 2000 true
    (by decide)

/-! Section: Claim C4 — volumes stay clamped at every reachable state -/

/-- Claim C4: (confirmed).  At every mixer state reachable by any sequence of
operations (start, per-sound `set_volume` with arbitrary levels,
`set_master_volume`, `stop_all`, texture playback, gong, weather presets),
the master volume and the volume of every playback channel the engine holds
— hence the effective output volume of every handle — lie within [0, 1].
Note `set_volume` writes the *sample's* volume unclamped; the per-handle
channel volumes the engine commands are always the clamped master volume. -/
theorem claim_C4_volumes_clamped (s : AMState) (hs : Reachable s) :
    (0 ≤ s.master_volume ∧ s.master_volume ≤ 1) ∧
    ∀ ch ∈ s.chanPool, 0 ≤ ch.volume ∧ ch.volume ≤ 1 := by
  obtain ⟨h1, h2, h3, _⟩ := reachable_inv hs
  exact ⟨⟨h1, h2⟩, h3⟩

/-- Witness for `claim_C4_volumes_clamped` at a state with one started loop. -/
theorem claim_C4_witness :
    (0 ≤ (playSound (initState ["rain.wav"] [] [] 0 50) "rain.wav" 2000
          true).master_volume ∧
      (playSound (initState ["rain.wav"] [] [] 0 50) "rain.wav" 2000
          true).master_volume ≤ 1) ∧
    ∀ ch ∈ (playSound (initState ["rain.wav"] [] [] 0 50) "rain.wav" 2000
        true).chanPool, 0 ≤ ch.volume ∧ ch.volume ≤ 1 :=
  claim_C4_volumes_clamped _
    (Reachable.play "rain.wav" 2000 true
      (Reachable.init ["rain.wav"] [] [] 0 50 (by norm_num)))

/-! Section: Claim C5 — set_master_volume stores the clamp and re-applies it -/

/-- Claim C5: (confirmed).  `set_master_volume(level)` stores exactly
`clamp(level, 0, 1)`, immediately re-applies the new master volume to every
currently active (busy) handle referenced by the `channels` dict, and is
absolute: a second call stores the clamp of its own argument only. -/
theorem claim_C5_master_absolute (s : AMState) (level l2 : ℚ)
    (d : MixChannel) :
    (setMasterVolume s level).master_volume = clamp01 level ∧
    (∀ nm idx, (nm, idx) ∈ s.channels → idx < s.chanPool.length →
      (s.chanPool.getD idx d).busy = true →
      ((setMasterVolume s level).chanPool.getD idx d).volume =
        clamp01 level) ∧
    (setMasterVolume (setMasterVolume s level) l2).master_volume =
      clamp01 l2 := by
  refine ⟨rfl, ?_, rfl⟩
  intro nm idx hmem hlt hbusy
  have hc : (setMasterVolume s level).chanPool =
      applyMaster s.channels (clamp01 level) 0 s.chanPool := rfl
  rw [hc, applyMaster_getD s.channels (clamp01 level) s.chanPool 0 idx d hlt]
  have hany : s.channels.any (fun kv => kv.2 == 0 + idx) = true :=
    List.any_eq_true.mpr ⟨(nm, idx), hmem, by simp⟩
  have hcond : ((s.channels.any fun kv => kv.2 == 0 + idx) &&
      (s.chanPool.getD idx d).busy) = true := by
    rw [hany, hbusy]
    rfl
  rw [if_pos hcond]

/-- Witness for `claim_C5_master_absolute`: one busy referenced handle gets
the clamped new master volume. -/
theorem claim_C5_witness :
    ((setMasterVolume
          (playSound (initState ["rain.wav"] [] [] 0 50) "rain.wav" 2000 true)
          (1 / 2)).chanPool.getD 0
        { soundName := "", volume := 0, busy := false }).volume =
      clamp01 (1 / 2) :=
  (claim_C5_master_absolute
      (playSound (initState ["rain.wav"] [] [] 0 50) "rain.wav" 2000 true)
      (1 / 2) 2 { soundName := "", volume := 0, busy := false }).2.1
    "rain.wav" 0 (by decide) (by decide) (by decide)

/-! Section: Claim C6 — at most one active handle per sample name -/

/-- Claim C6: (confirmed).  At every reachable mixer state each sample name has
at most one entry in the `playing` list and at most one key in the `channels`
dict; and starting an in-pool name twice leaves exactly one active handle for
it — the dict entry is replaced, the `playing` list is not extended. -/
theorem claim_C6_single_handle (s : AMState) (hs : Reachable s)
    (name : String) (f1 f2 : Nat) (hname : name ∈ keysOf s.sounds) :
    (∀ n, s.playing.count n ≤ 1 ∧ (keysOf s.channels).count n ≤ 1) ∧
    (playSound (playSound s name f1 true) name f2 true).playing.count name
      = 1 ∧
    (keysOf
        (playSound (playSound s name f1 true) name f2 true).channels).count
      name = 1 := by
  obtain ⟨_, _, _, h4, h5, _⟩ := reachable_inv hs
  obtain ⟨_, _, _, h4', h5', _⟩ := stateInv_play (reachable_inv hs) name f1 true
  obtain ⟨hs1s, hs1p, hs1c⟩ := playSound_true_fields f1 hname
  have hname1 : name ∈ keysOf (playSound s name f1 true).sounds := by
    rw [hs1s]; exact hname
  obtain ⟨hs2s, hs2p, hs2c⟩ := playSound_true_fields f2 hname1
  refine ⟨?_, ?_, ?_⟩
  · intro n
    exact ⟨List.nodup_iff_count_le_one.mp h5 n,
      List.nodup_iff_count_le_one.mp h4 n⟩
  · rw [hs2p]
    have hmem1 : name ∈ (playSound s name f1 true).playing := by
      rw [hs1p]
      by_cases hp : name ∈ s.playing
      · rw [if_pos hp]; exact hp
      · rw [if_neg hp]; simp
    rw [if_pos hmem1]
    exact le_antisymm (List.nodup_iff_count_le_one.mp h5' name)
      (List.count_pos_iff.mpr hmem1)
  · rw [hs2c]
    exact count_keysOf_assocSet _ h4'

/-- Witness for `claim_C6_single_handle`: playing `rain.wav` twice from a
fresh mixer leaves exactly one `playing` entry and one `channels` key. -/
theorem claim_C6_witness :
    (playSound
        (playSound (initState ["rain.wav"] [] [] 0 50) "rain.wav" 1000 true)
        "rain.wav" 2000 true).playing.count "rain.wav" = 1 :=
  (claim_C6_single_handle (initState ["rain.wav"] [] [] 0 50)
    (Reachable.init ["rain.wav"] [] [] 0 50 (by norm_num)) "rain.wav" 1000
    2000 (by decide)).2.1

lemma choiceProb_sum (playing : List String)
    (h : validTextures playing ≠ []) :
    ((validTextures playing).dedup.map
        (fun x => textureChoiceProb playing x)).sum = 1 := by
  have hL : ¬ (validTextures playing).length = 0 := by
    intro h0
    exact h (List.length_eq_zero.mp h0)
  have hlenQ : ((validTextures playing).length : ℚ) ≠ 0 := by
    exact_mod_cast hL
  have hmap : (validTextures playing).dedup.map
        (fun x => textureChoiceProb playing x) =
      (validTextures playing).dedup.map
        (fun x => ((validTextures playing).count x : ℚ) *
          ((validTextures playing).length : ℚ)⁻¹) := by
    apply List.map_congr_left
    intro x _
    simp [textureChoiceProb, hL, div_eq_mul_inv]
  rw [hmap, List.sum_map_mul_right]
  have hsum : ((validTextures playing).dedup.map
        (fun x => (((validTextures playing).count x : ℕ) : ℚ))).sum =
      ((validTextures playing).length : ℚ) := by
    rw [show (fun x => (((validTextures playing).count x : ℕ) : ℚ)) =
        (fun n : ℕ => (n : ℚ)) ∘ (fun x => (validTextures playing).count x)
      from rfl]
    rw [← List.map_map, ← Nat.cast_list_sum,
      List.sum_map_count_dedup_eq_length]
  rw [hsum, mul_inv_cancel₀ hlenQ]

/-! Section: Claim C7 — which texture the scheduler picks -/

/-- Claim C7: (counterexample).  The claim says the choice is uniform over the
UNION of matching mapping entries.  With loops `fire.wav` and `lofi.wav`
active, `page-turn.mp3` appears in both matched entries, so `random.choice`
over the concatenated candidate list picks it with probability 2/9, whereas a
uniform draw over the 7-element union would give 1/7. -/
theorem claim_C7_counterexample :
    "page-turn.mp3" ∈ validTextures ["fire.wav", "lofi.wav"] ∧
    textureChoiceProb ["fire.wav", "lofi.wav"] "page-turn.mp3" ≠
      specUniformOverUnion ["fire.wav", "lofi.wav"] "page-turn.mp3" := by
  have hcount :
      (validTextures ["fire.wav", "lofi.wav"]).count "page-turn.mp3" = 2 := by
    decide
  have hlen : (validTextures ["fire.wav", "lofi.wav"]).length = 9 := by
    decide
  have hdlen :
      (validTextures ["fire.wav", "lofi.wav"]).dedup.length = 7 := by decide
  have hmem :
      "page-turn.mp3" ∈ (validTextures ["fire.wav", "lofi.wav"]).dedup := by
    decide
  refine ⟨by decide, ?_⟩
  simp only [textureChoiceProb, specUniformOverUnion, hcount, hlen, hdlen]
  rw [if_neg (by norm_num), if_pos hmem]
  norm_num

/-- Claim C7: (amended).  The scheduler's candidate support is exactly the union,
over all active loops, of the TextureMapping entries whose theme key
case-insensitively contains, or is contained in, the loop's normalized topic;
the choice is uniform over the CONCATENATED candidate list — each texture is
drawn with probability multiplicity/length, and these probabilities sum to 1
— so a texture matched by several loops or keys is proportionally more
likely.  A chosen texture absent from the loaded texture pool is silently
skipped: the mixer state is left entirely unchanged, with no error. -/
theorem claim_C7_texture_choice (playing : List String) (t : String)
    (s : AMState) (i : Nat) (r : ℚ) :
    (t ∈ validTextures playing ↔
      ∃ lf ∈ playing, ∃ kt ∈ TEXTURE_MAP,
        themeMatches kt.1 (normTopic lf) = true ∧ t ∈ kt.2) ∧
    (validTextures playing ≠ [] →
      ((validTextures playing).dedup.map
          (fun x => textureChoiceProb playing x)).sum = 1) ∧
    ((validTextures s.playing).getD
          (i % (validTextures s.playing).length) "" ∉ keysOf s.textures →
      playRandomTexture s i r = s) := by
  refine ⟨mem_validTextures playing t, choiceProb_sum playing, ?_⟩
  intro hnot
  unfold playRandomTexture
  split
  · rfl
  · dsimp only
    split
    all_goals rfl

/-- Witness for `claim_C7_texture_choice`: the spec's own example (the
`Rain Sounds` loop) has probability mass 1 over its two candidates, and with
an empty texture pool the chosen texture is skipped leaving the state as it
was. -/
theorem claim_C7_witness :
    ((validTextures ["rain_sounds.wav"]).dedup.map
        (fun x => textureChoiceProb ["rain_sounds.wav"] x)).sum = 1 ∧
    playRandomTexture
        (playSound (initState ["rain_sounds.wav"] [] [] 0 50)
          "rain_sounds.wav" 2000 true) 0 (1 / 2) =
      playSound (initState ["rain_sounds.wav"] [] [] 0 50)
        "rain_sounds.wav" 2000 true :=
  ⟨(claim_C7_texture_choice ["rain_sounds.wav"] "" (initState [] [] [] 0 50)
      0 0).2.1 (by decide),
   (claim_C7_texture_choice ["rain_sounds.wav"] ""
      (playSound (initState ["rain_sounds.wav"] [] [] 0 50) "rain_sounds.wav"
        2000 true) 0 (1 / 2)).2.2 (by decide)⟩

/-! Section: Claim C8 — the texture interval -/

/-- Claim C8: (confirmed).  At every reachable state the next texture interval is
strictly positive, and whenever a tick evaluation fires
(`now - last_trigger_time > next_interval`), the trigger time is set to `now`
and the interval is replaced by the fresh draw `v` — whether or not a texture
was actually found and played. -/
theorem claim_C8_interval (s : AMState) (now : ℚ) (i : Nat) (r v : ℚ)
    (hs : Reachable s) :
    0 < s.next_texture_interval ∧
    (now - s.last_texture_time > s.next_texture_interval →
      (updateTextures s now i r v).last_texture_time = now ∧
      (updateTextures s now i r v).next_texture_interval = v) := by
  refine ⟨(reachable_inv hs).2.2.2.2.2.2.2, ?_⟩
  intro hfire
  unfold updateTextures
  rw [if_pos hfire]
  exact ⟨rfl, rfl⟩

/-- Witness for `claim_C8_interval` on a fresh mixer with an elapsed
interval. -/
theorem claim_C8_witness :
    0 < (initState [] [] [] 0 50).next_texture_interval ∧
    ((updateTextures (initState [] [] [] 0 50) 100 0 (1 / 2)
        40).last_texture_time = 100 ∧
      (updateTextures (initState [] [] [] 0 50) 100 0 (1 / 2)
        40).next_texture_interval = 40) :=
  ⟨(claim_C8_interval (initState [] [] [] 0 50) 100 0 (1 / 2) 40
      (Reachable.init [] [] [] 0 50 (by norm_num))).1,
   (claim_C8_interval (initState [] [] [] 0 50) 100 0 (1 / 2) 40
      (Reachable.init [] [] [] 0 50 (by norm_num))).2 (by norm_num [initState])⟩

/-! Section: Claim C9 — the load scan is total and skips failures -/

/-- Claim C9: (confirmed).  For both loaders the scan is total (the embedding is
a plain function; no code path propagates an exception): a missing directory
yields no error and leaves the pool as it was (empty on first scan); only
regular files whose lowered extension is `.wav`, `.mp3` or `.ogg` appear in
the loaded pool of `_scan_folder` (and only decodable `.wav`-suffixed names
in the legacy `_load_sounds`), scanned non-recursively over the listed
entries; and a decode failure is logged and skipped without aborting the
rest: one corrupt file between two valid files yields exactly the two valid
samples plus one logged name. -/
theorem claim_C9_scan_total (storage : List (String × ℚ))
    (entries : List FsEntry) (t : String) (e1 e2 e3 : FsEntry)
    (h1 : e1.isFile = true ∧ extAllowed e1.name = true ∧ e1.decodes = true)
    (h2 : e2.isFile = true ∧ extAllowed e2.name = true ∧ e2.decodes = false)
    (h3 : e3.isFile = true ∧ extAllowed e3.name = true ∧ e3.decodes = true)
    (hne : e1.name ≠ e3.name) :
    scanFolder none storage = (storage, []) ∧
    (t ∈ keysOf (scanFolder (some entries) storage).1 →
      t ∈ keysOf storage ∨
        ∃ e ∈ entries, e.name = t ∧ e.isFile = true ∧
          extAllowed e.name = true ∧ e.decodes = true) ∧
    scanFolder (some [e1, e2, e3]) [] =
      ([(e1.name, 1), (e3.name, 1)], [e2.name]) ∧
    loadSoundsWav none = ([], []) ∧
    (t ∈ keysOf (loadSoundsWav (some entries)).1 →
      strEnds ".wav" (lowerStr t) = true ∧
        ∃ e ∈ entries, e.name = t ∧ e.decodes = true) := by
  refine ⟨rfl, ?_, ?_, rfl, ?_⟩
  · intro ht
    unfold scanFolder at ht
    rw [keys_scanFoldl] at ht
    rcases ht with h | ⟨e, he, hn, hc⟩
    · exact Or.inl h
    · simp only [Bool.and_eq_true] at hc
      exact Or.inr ⟨e, he, hn, hc.1.1, hc.1.2, hc.2⟩
  · simp [scanFolder, scanStep, assocSet, keysOf, h1.1, h1.2.1, h1.2.2,
      h2.1, h2.2.1, h2.2.2, h3.1, h3.2.1, h3.2.2, Ne.symm hne]
  · intro ht
    unfold loadSoundsWav at ht
    rw [keys_wavFoldl] at ht
    rcases ht with h | ⟨e, he, hn, hd⟩
    · simp [keysOf] at h
    · have hf := List.mem_filter.mp he
      exact ⟨hn ▸ hf.2, e, hf.1, hn, hd⟩

/-- Witness for `claim_C9_scan_total`: a concrete directory with a corrupt
`.mp3` between two decodable files yields exactly the two samples and the one
logged failure. -/
theorem claim_C9_witness :
    scanFolder
        (some
          [{ name := "a.wav", isFile := true, decodes := true },
           { name := "b.mp3", isFile := true, decodes := false },
           { name := "c.ogg", isFile := true, decodes := true }]) [] =
      ([("a.wav", 1), ("c.ogg", 1)], ["b.mp3"]) :=
  (claim_C9_scan_total [] [] ""
      { name := "a.wav", isFile := true, decodes := true }
      { name := "b.mp3", isFile := true, decodes := false }
      { name := "c.ogg", isFile := true, decodes := true }
      ⟨rfl, by decide, rfl⟩ ⟨rfl, by decide, rfl⟩ ⟨rfl, by decide, rfl⟩
      (by decide)).2.2.1

/-! Section: Claim C10 — the weather-frequency presets -/

/-- Claim C10: (confirmed).  `set_weather_frequency` maps the token,
case-insensitively, `low` to (60, 120), `medium` to (30, 90) and `high` to
(15, 45); any other token silently falls back to the medium range (30, 90)
without raising, and the call never changes `last_texture_time` or the
already-drawn `next_texture_interval`. -/
theorem claim_C10_weather_tokens (s : AMState) (level : String) :
    (lowerStr level = "low" →
      (setWeatherFrequency s level).weather_freq_range = (60, 120)) ∧
    (lowerStr level = "medium" →
      (setWeatherFrequency s level).weather_freq_range = (30, 90)) ∧
    (lowerStr level = "high" →
      (setWeatherFrequency s level).weather_freq_range = (15, 45)) ∧
    (lowerStr level ∉ keysOf weatherRanges →
      (setWeatherFrequency s level).weather_freq_range = (30, 90)) ∧
    (setWeatherFrequency s level).last_texture_time = s.last_texture_time ∧
    (setWeatherFrequency s level).next_texture_interval =
      s.next_texture_interval := by
  refine ⟨?_, ?_, ?_, ?_, rfl, rfl⟩
  · intro h
    show (List.lookup (lowerStr level) weatherRanges).getD (30, 90) = (60, 120)
    rw [h]
    rfl
  · intro h
    show (List.lookup (lowerStr level) weatherRanges).getD (30, 90) = (30, 90)
    rw [h]
    rfl
  · intro h
    show (List.lookup (lowerStr level) weatherRanges).getD (30, 90) = (15, 45)
    rw [h]
    rfl
  · intro h
    show (List.lookup (lowerStr level) weatherRanges).getD (30, 90) = (30, 90)
    rw [lookup_none_of_not_mem h]
    rfl

/-- Witness for `claim_C10_weather_tokens`: the uppercase token `LOW` selects
(60, 120) and an unknown token falls back to (30, 90). -/
theorem claim_C10_witness :
    (setWeatherFrequency (initState [] [] [] 0 50) "LOW").weather_freq_range
        = (60, 120) ∧
    (setWeatherFrequency (initState [] [] [] 0 50) "storm").weather_freq_range
        = (30, 90) :=
  ⟨(claim_C10_weather_tokens (initState [] [] [] 0 50) "LOW").1 (by decide),
   (claim_C10_weather_tokens (initState [] [] [] 0 50) "storm").2.2.2.1
     (by decide)⟩
